import Mathlib

/-!
Verification of the gojsonrpc JSON-RPC 2.0 codec (`jsonrpc.go`) against its
specification.

The Go code operates on raw bytes through `encoding/json`.  We embed it at the
JSON-value level: a byte input is modelled as `Option Json` — `none` stands for
bytes that `json.Unmarshal` rejects as malformed JSON, `some j` for bytes whose
JSON value is `j`.  Decoding a `Json` value into one of the Go structs
(`notification`, `request`, `jsonRPCError`, `response`) is modelled explicitly,
following `encoding/json` semantics: unknown object keys are ignored, keys match
struct tags up to ASCII case (modelled with `lowerKey`), later duplicate
keys overwrite earlier ones, `null` into a string or int field is a no-op,
`null` into a pointer or interface field yields nil (`none`), a `json.RawMessage`
field records any JSON value verbatim (including `null`), and a type mismatch
on any field makes the whole `Unmarshal` fail (modelled by `Option.none` from
the decoder).  JSON numbers are modelled as `Rat`; decoding into Go `int`
requires an integral value (Go's int-overflow failure is not modelled; all codes
in play are small).

Values of Go type `any` produced by decoding are modelled by `Option GoAny`
(`none` = nil interface).  Values passed to `json.Marshal` positions typed
`any` are modelled by the `Json` value they serialize to (Go nil marshals to
JSON `null`); hence a "serializable value" in the spec is exactly a `Json`
here, and serialization of such a value cannot fail.

Byte output of the builders is modelled by the produced JSON value, plus — for
the claims that are about raw bytes — a compact renderer mirroring
`encoding/json.Marshal` output (struct fields in declaration order, `omitempty`
fields dropped when empty, strings escaped as Go does with HTML escaping on).
Number formatting is `strconv`'s business, not this repository's, so the
renderer is parameterized by a number formatter `nr : Rat → String`.
-/

/-- A JSON value.  Objects keep their members in source order (duplicates
allowed, as in real JSON text). -/
inductive Json where
  | null : Json
  | bool (b : Bool) : Json
  | num (q : Rat) : Json
  | str (s : String) : Json
  | arr (elems : List Json) : Json
  | obj (members : List (String × Json)) : Json

/-- Model of the dynamic value `json.Unmarshal` stores into a Go `any`
(interface) destination: JSON numbers become `float64`, strings `string`,
booleans `bool`, arrays `[]any` and objects `map[string]any` (their contents
are kept as the underlying JSON, since the Go code never inspects them). -/
inductive GoAny where
  | num (q : Rat) : GoAny
  | str (s : String) : GoAny
  | bool (b : Bool) : GoAny
  | arr (elems : List Json) : GoAny
  | obj (members : List (String × Json)) : GoAny

/-- `json.Unmarshal` of a JSON value into an `any` destination: `null` gives
the nil interface. -/
def jsonToGoAny : Json → Option GoAny
  | Json.null => none
  | Json.bool b => some (GoAny.bool b)
  | Json.num q => some (GoAny.num q)
  | Json.str s => some (GoAny.str s)
  | Json.arr es => some (GoAny.arr es)
  | Json.obj ms => some (GoAny.obj ms)

/-- `json.Marshal` of a decoded `any` value (as stored by `jsonToGoAny`). -/
def goAnyToJson : GoAny → Json
  | GoAny.num q => Json.num q
  | GoAny.str s => Json.str s
  | GoAny.bool b => Json.bool b
  | GoAny.arr es => Json.arr es
  | GoAny.obj ms => Json.obj ms

/-- Last-binding lookup of a key in a JSON object's member list.  `encoding/json`
processes members left to right, later occurrences of a key overwriting
earlier ones, so the effective value of a key is its last occurrence. -/
def jLookup (ms : List (String × Json)) (k : String) : Option Json :=
  (ms.filter (fun m => m.1 = k)).getLast?.map (fun m => m.2)

/-- Go `strings.HasPrefix(s, pre)`: byte-level prefix test. -/
def hasPrefix (s pre : String) : Bool :=
  pre.data.isPrefixOf s.data

/-- ASCII lower-casing of one character, for `encoding/json`'s case-insensitive
matching of object keys against struct field tags. -/
def asciiLower (c : Char) : Char :=
  if 'A' ≤ c ∧ c ≤ 'Z' then Char.ofNat (c.toNat + 32) else c

/-- An object key folded to lower case for matching against the (lower-case)
struct field tags, modelling `encoding/json`'s case-insensitive key match. -/
def lowerKey (s : String) : String :=
  String.mk (s.data.map asciiLower)

/-- The constant `jsonRPCProtocol = "2.0"` (jsonrpc.go line 24). -/
def jsonRPCProtocol : String := "2.0"

/-- Go struct `notification` (jsonrpc.go lines 30-34): fields `jsonrpc`,
`method`, `params` (a `json.RawMessage` with `omitempty`; `none` models the
nil slice, i.e. the field absent). -/
structure notification where
  JsonRPC : String := ""
  Method : String := ""
  Params : Option Json := none

/-- Go struct `request` (jsonrpc.go lines 79-84): `notification`'s fields plus
`id` of type `any` (`none` models the nil interface). -/
structure request where
  JsonRPC : String := ""
  Method : String := ""
  Params : Option Json := none
  ID : Option GoAny := none

/-- Go struct `jsonRPCError` (jsonrpc.go lines 150-154): `code`, `message`,
and `data` (a `json.RawMessage` with `omitempty`). -/
structure jsonRPCError where
  Code : Int
  Message : String
  Data : Option Json := none

/-- Go struct `response` (jsonrpc.go lines 217-222): `jsonrpc`, `result`
(`json.RawMessage`, `omitempty`), `error` (`*jsonRPCError`, `omitempty`),
and `id` (`any`, no `omitempty`: marshalled as `null` when nil). -/
structure response where
  JsonRPC : String := ""
  Result : Option Json := none
  Error : Option jsonRPCError := none
  ID : Option GoAny := none

/-- Reserved error codes (jsonrpc.go lines 157-163). -/
def ParseError : Int := -32700

def InvalidRequest : Int := -32600

def MethodNotFound : Int := -32601

def InvalidMethodParameters : Int := -32602

def InternalError : Int := -32603

/-- Canonical error object `JsonParseError` (jsonrpc.go line 167). -/
def JsonParseError : jsonRPCError := { Code := ParseError, Message := "Parse error" }

/-- Canonical error object `JsonInvalidRequest` (jsonrpc.go line 168). -/
def JsonInvalidRequest : jsonRPCError := { Code := InvalidRequest, Message := "Invalid Request" }

/-- Canonical error object `JsonMethodNotFound` (jsonrpc.go line 169). -/
def JsonMethodNotFound : jsonRPCError := { Code := MethodNotFound, Message := "Method not found" }

/-- Canonical error object `JsonInvalidMethodParameters` (jsonrpc.go line 170). -/
def JsonInvalidMethodParameters : jsonRPCError :=
  { Code := InvalidMethodParameters, Message := "Invalid method parameters" }

/-- Canonical error object `JsonInternalError` (jsonrpc.go line 171). -/
def JsonInternalError : jsonRPCError := { Code := InternalError, Message := "Internal error" }

/-- One decoding step of `json.Unmarshal` into the `notification` struct:
process a single object member.  A member whose key matches no field (up to
case) is ignored; `null` into a string field is a no-op; a non-string value in
a string field is a type mismatch failing the whole decode. -/
def decodeNotificationStep (n : notification) (m : String × Json) : Option notification :=
  if lowerKey m.1 = "jsonrpc" then
    match m.2 with
    | Json.str s => some { n with JsonRPC := s }
    | Json.null => some n
    | _ => none
  else if lowerKey m.1 = "method" then
    match m.2 with
    | Json.str s => some { n with Method := s }
    | Json.null => some n
    | _ => none
  else if lowerKey m.1 = "params" then
    some { n with Params := some m.2 }
  else
    some n

/-- `json.Unmarshal` of a JSON value into the `notification` struct.  The
top-level value must be an object (or `null`, which leaves the zero struct). -/
def decodeNotification : Json → Option notification
  | Json.null => some {}
  | Json.obj ms => ms.foldlM decodeNotificationStep {}
  | _ => none

/-- One decoding step of `json.Unmarshal` into the `request` struct. -/
def decodeRequestStep (r : request) (m : String × Json) : Option request :=
  if lowerKey m.1 = "jsonrpc" then
    match m.2 with
    | Json.str s => some { r with JsonRPC := s }
    | Json.null => some r
    | _ => none
  else if lowerKey m.1 = "method" then
    match m.2 with
    | Json.str s => some { r with Method := s }
    | Json.null => some r
    | _ => none
  else if lowerKey m.1 = "params" then
    some { r with Params := some m.2 }
  else if lowerKey m.1 = "id" then
    some { r with ID := jsonToGoAny m.2 }
  else
    some r

/-- `json.Unmarshal` of a JSON value into the `request` struct. -/
def decodeRequest : Json → Option request
  | Json.null => some {}
  | Json.obj ms => ms.foldlM decodeRequestStep {}
  | _ => none

/-- One decoding step of `json.Unmarshal` into the `jsonRPCError` struct.
The `code` field is a Go `int`: a JSON number decodes into it only when
integral (fractional values make `Unmarshal` fail). -/
def decodeErrorStep (e : jsonRPCError) (m : String × Json) : Option jsonRPCError :=
  if lowerKey m.1 = "code" then
    match m.2 with
    | Json.num q => if q.den = 1 then some { e with Code := q.num } else none
    | Json.null => some e
    | _ => none
  else if lowerKey m.1 = "message" then
    match m.2 with
    | Json.str s => some { e with Message := s }
    | Json.null => some e
    | _ => none
  else if lowerKey m.1 = "data" then
    some { e with Data := some m.2 }
  else
    some e

/-- `json.Unmarshal` of a JSON value into a `*jsonRPCError` destination:
`null` yields the nil pointer (`none`), an object decodes the struct,
anything else is a type mismatch failing the whole decode. -/
def decodeErrorPtr : Json → Option (Option jsonRPCError)
  | Json.null => some none
  | Json.obj ms => (ms.foldlM decodeErrorStep { Code := 0, Message := "" }).map some
  | _ => none

/-- One decoding step of `json.Unmarshal` into the `response` struct. -/
def decodeResponseStep (r : response) (m : String × Json) : Option response :=
  if lowerKey m.1 = "jsonrpc" then
    match m.2 with
    | Json.str s => some { r with JsonRPC := s }
    | Json.null => some r
    | _ => none
  else if lowerKey m.1 = "result" then
    some { r with Result := some m.2 }
  else if lowerKey m.1 = "error" then
    (decodeErrorPtr m.2).map (fun e => { r with Error := e })
  else if lowerKey m.1 = "id" then
    some { r with ID := jsonToGoAny m.2 }
  else
    some r

/-- `json.Unmarshal` of a JSON value into the `response` struct. -/
def decodeResponse : Json → Option response
  | Json.null => some {}
  | Json.obj ms => ms.foldlM decodeResponseStep {}
  | _ => none

/-- `ParseNotification` (jsonrpc.go lines 38-54).  Input `none` models bytes
rejected by `json.Unmarshal`; the Go function forwards that error, and returns
`errors.New "invalid notification"` for the two validation failures. -/
def ParseNotification (notificationRaw : Option Json) : Except String notification :=
  match notificationRaw.bind decodeNotification with
  | none => Except.error "json unmarshal error"
  | some n =>
    if n.JsonRPC ≠ jsonRPCProtocol then Except.error "invalid notification"
    else if hasPrefix n.Method "rpc." then Except.error "invalid notification"
    else Except.ok n

/-- `ParseRequest` (jsonrpc.go lines 98-124).  An unmarshal failure yields the
canonical `JsonParseError`; every later failure yields `JsonInvalidRequest`.
The final type switch on `request.ID` accepts exactly `float64` (the type
`json.Unmarshal` uses for every JSON number) and `string`. -/
def ParseRequest (requestRaw : Option Json) : Except jsonRPCError request :=
  match requestRaw.bind decodeRequest with
  | none => Except.error JsonParseError
  | some r =>
    if r.JsonRPC ≠ jsonRPCProtocol then Except.error JsonInvalidRequest
    else if hasPrefix r.Method "rpc." then Except.error JsonInvalidRequest
    else
      match r.ID with
      | some (GoAny.num _) => Except.ok r
      | some (GoAny.str _) => Except.ok r
      | _ => Except.error JsonInvalidRequest

/-- The distinct failure exits of `ParseResponse` (jsonrpc.go lines 226-252),
one constructor per `return nil, ...` site, in source order.  `jsonUnmarshal`
stands for the error forwarded from `json.Unmarshal` (line 230). -/
inductive RespError where
  | jsonUnmarshal : RespError
  | protocolMismatch : RespError
  | resultOrErrorMissing : RespError
  | resultAndErrorTogether : RespError
  | idMissingWithoutError : RespError
  | idNullWithWrongCode : RespError
deriving DecidableEq

/-- `ParseResponse` (jsonrpc.go lines 226-252).  `len(response.Result) == 0`
is `Result = none` here (a present `result` member always leaves a non-empty
raw message, even for `null`); `response.Error == nil` is `Error = none`;
`response.ID == nil` is `ID = none` (covers both an absent `id` member and an
explicit `"id":null`). -/
def ParseResponse (responseRaw : Option Json) : Except RespError response :=
  match responseRaw.bind decodeResponse with
  | none => Except.error RespError.jsonUnmarshal
  | some r =>
    if r.JsonRPC ≠ jsonRPCProtocol then Except.error RespError.protocolMismatch
    else if r.Result.isNone && r.Error.isNone then Except.error RespError.resultOrErrorMissing
    else if r.Result.isSome && r.Error.isSome then Except.error RespError.resultAndErrorTogether
    else
      match r.ID with
      | none =>
        match r.Error with
        | none => Except.error RespError.idMissingWithoutError
        | some e =>
          if e.Code ≠ ParseError ∧ e.Code ≠ InvalidRequest then
            Except.error RespError.idNullWithWrongCode
          else Except.ok r
      | some _ => Except.ok r

/-- The constraint `idInterface` (jsonrpc.go lines 26-28): an id handed to
`NewRequest`/`NewResultResponse` is a Go `int`, `float64` or `string`.  All
number-like cases marshal to the same JSON number, so they are modelled
together as `Rat`. -/
inductive idInterface where
  | num (q : Rat) : idInterface
  | str (s : String) : idInterface

/-- The `any` value a typed id argument carries at runtime. -/
def idToGoAny : idInterface → GoAny
  | idInterface.num q => GoAny.num q
  | idInterface.str s => GoAny.str s

/-- `json.Marshal` of the `notification` struct: fields in declaration order;
`params` carries `omitempty` and a nil `json.RawMessage` is dropped. -/
def marshalNotification (n : notification) : Json :=
  Json.obj
    ([("jsonrpc", Json.str n.JsonRPC), ("method", Json.str n.Method)] ++
      (match n.Params with
       | none => []
       | some p => [("params", p)]))

/-- `NewNotification` (jsonrpc.go lines 58-77), up to rendering: the JSON value
of the produced bytes.  `params = none` models passing Go `nil`, in which case
the `Params` field is never set; serializing an already-serializable `params`
value cannot fail, so the function is total at this level. -/
def NewNotificationJson (method : String) (params : Option Json) : Json :=
  marshalNotification { JsonRPC := "2.0", Method := method, Params := params }

/-- `json.Marshal` of the `request` struct. -/
def marshalRequest (r : request) : Json :=
  Json.obj
    ([("jsonrpc", Json.str r.JsonRPC), ("method", Json.str r.Method)] ++
      (match r.Params with
       | none => []
       | some p => [("params", p)]) ++
      [("id", match r.ID with
              | none => Json.null
              | some a => goAnyToJson a)])

/-- `NewRequest` (jsonrpc.go lines 128-148), up to rendering: the JSON value of
the produced bytes. -/
def NewRequestJson (method : String) (params : Option Json) (id : idInterface) : Json :=
  marshalRequest
    { JsonRPC := "2.0", Method := method, Params := params, ID := some (idToGoAny id) }

/-- `jsonRPCError.AddData` (jsonrpc.go lines 183-195): value receiver, builds a
fresh object from the receiver's code and message and the marshalled data.
`data` is the JSON value the Go argument serializes to (Go `nil` serializes to
JSON `null`), so the marshal step cannot fail at this level. -/
def jsonRPCError.AddData (j : jsonRPCError) (data : Json) : jsonRPCError :=
  { Code := j.Code, Message := j.Message, Data := some data }

/-- `NewJsonRPCError` (jsonrpc.go lines 199-215): range-checks the code, then
builds the error object with the marshalled data. -/
def NewJsonRPCError (code : Int) (message : String) (data : Json) :
    Except String jsonRPCError :=
  if code < -32099 ∨ code > -32000 then
    Except.error "code must be between  -32099 and -32000"
  else
    Except.ok { Code := code, Message := message, Data := some data }

/-- `json.Marshal` of the `jsonRPCError` struct: `data` carries `omitempty`. -/
def marshalError (e : jsonRPCError) : Json :=
  Json.obj
    ([("code", Json.num e.Code), ("message", Json.str e.Message)] ++
      (match e.Data with
       | none => []
       | some d => [("data", d)]))

/-- `json.Marshal` of the `response` struct: `result` and `error` carry
`omitempty` and are dropped when nil; `id` does not, so a nil id is marshalled
as an explicit `"id":null` member. -/
def marshalResponse (r : response) : Json :=
  Json.obj
    ([("jsonrpc", Json.str r.JsonRPC)] ++
      (match r.Result with
       | none => []
       | some res => [("result", res)]) ++
      (match r.Error with
       | none => []
       | some e => [("error", marshalError e)]) ++
      [("id", match r.ID with
              | none => Json.null
              | some a => goAnyToJson a)])

/-- `NewErrorResponse` (jsonrpc.go lines 256-287).  The id argument is a Go
`any` (`none` = nil); the error argument a possibly-nil pointer.  For codes
other than `ParseError` and `InvalidRequest` a non-nil id of type `int`,
`float64` or `string` is required and stored; for those two codes the id
argument is ignored and `response.ID` stays nil. -/
def NewErrorResponse (id : Option GoAny) (jsonError : Option jsonRPCError) :
    Except String Json :=
  match jsonError with
  | none => Except.error "no JSON-RPC error passed as parameter"
  | some e =>
    if e.Code ≠ ParseError ∧ e.Code ≠ InvalidRequest then
      match id with
      | none => Except.error "id must be present unless the error is ParseError or InvalidRequest"
      | some a =>
        match a with
        | GoAny.num _ =>
          Except.ok (marshalResponse { JsonRPC := jsonRPCProtocol, Error := some e, ID := some a })
        | GoAny.str _ =>
          Except.ok (marshalResponse { JsonRPC := jsonRPCProtocol, Error := some e, ID := some a })
        | _ => Except.error "id must be of type int, float64 or string"
    else
      Except.ok (marshalResponse { JsonRPC := jsonRPCProtocol, Error := some e })

/-- `marshalResultResponse` (jsonrpc.go lines 300-312): stores the marshalled
result into the response and marshals the whole struct.  `result` is the JSON
value the Go argument serializes to (Go `nil` gives `Json.null`), so neither
marshal step can fail at this level and the result member is always present. -/
def marshalResultResponse (r : response) (result : Json) : Json :=
  marshalResponse { r with Result := some result }

/-- `NewResultResponse` (jsonrpc.go lines 291-298): the typed-id variant. -/
def NewResultResponseJson (id : idInterface) (result : Json) : Json :=
  marshalResultResponse { JsonRPC := jsonRPCProtocol, ID := some (idToGoAny id) } result

/-- `request.NewResultResponse` (jsonrpc.go lines 88-94): the method variant
that reuses the parsed request's id. -/
def request.NewResultResponse (r : request) (result : Json) : Json :=
  marshalResultResponse { JsonRPC := jsonRPCProtocol, ID := r.ID } result

/-- Lower-case hexadecimal digit, as `encoding/json` uses in `\u00xx` escapes. -/
def hexDigit (n : Nat) : Char :=
  match n with
  | 0 => '0' | 1 => '1' | 2 => '2' | 3 => '3' | 4 => '4'
  | 5 => '5' | 6 => '6' | 7 => '7' | 8 => '8' | 9 => '9'
  | 10 => 'a' | 11 => 'b' | 12 => 'c' | 13 => 'd' | 14 => 'e' | 15 => 'f'
  | _ => '0'

/-- How `encoding/json.Marshal` (HTML escaping on, its default) renders one
character inside a JSON string literal. -/
def escapeChar (c : Char) : String :=
  if c = '"' then "\\\""
  else if c = '\\' then "\\\\"
  else if c = '\n' then "\\n"
  else if c = '\r' then "\\r"
  else if c = '\t' then "\\t"
  else if c = '<' then "\\u003c"
  else if c = '>' then "\\u003e"
  else if c = '&' then "\\u0026"
  else if c.toNat < 32 then
    "\\u00" ++ String.mk [hexDigit (c.toNat / 16), hexDigit (c.toNat % 16)]
  else if c = ' ' then "\\u2028"
  else if c = ' ' then "\\u2029"
  else String.singleton c

/-- The body of a JSON string literal: each character escaped in turn, as
`encoding/json`'s `appendString` loop does. -/
def escapeList : List Char → String
  | [] => ""
  | c :: cs => escapeChar c ++ escapeList cs

/-- A JSON string literal as `encoding/json.Marshal` renders it. -/
def renderString (s : String) : String :=
  "\"" ++ escapeList s.data ++ "\""

mutual

/-- Compact rendering of a JSON value, as `encoding/json.Marshal` emits it
(no inter-token whitespace).  Number formatting belongs to `strconv`, not to
this repository, so it is abstracted as the parameter `nr`. -/
def renderJson (nr : Rat → String) : Json → String
  | Json.null => "null"
  | Json.bool b => if b then "true" else "false"
  | Json.num q => nr q
  | Json.str s => renderString s
  | Json.arr es => "[" ++ renderElems nr es ++ "]"
  | Json.obj ms => "\x7b" ++ renderMembers nr ms ++ "\x7d"

/-- Comma-separated rendering of array elements. -/
def renderElems (nr : Rat → String) : List Json → String
  | [] => ""
  | [e] => renderJson nr e
  | e :: rest => renderJson nr e ++ "," ++ renderElems nr rest

/-- Comma-separated rendering of object members. -/
def renderMembers (nr : Rat → String) : List (String × Json) → String
  | [] => ""
  | [m] => renderString m.1 ++ ":" ++ renderJson nr m.2
  | m :: rest => renderString m.1 ++ ":" ++ renderJson nr m.2 ++ "," ++ renderMembers nr rest

end

/-- `NewNotification` (jsonrpc.go lines 58-77) down to bytes: the marshalled
struct rendered compactly, with the single `'\n'` byte appended at line 76. -/
def NewNotification (nr : Rat → String) (method : String) (params : Option Json) : String :=
  renderJson nr (NewNotificationJson method params) ++ "\n"

/-- A concrete number formatter for integral values, used to evaluate the
renderer on concrete messages (all numbers in this repository's canonical
objects are integers, which Go renders in plain decimal). -/
def intRepr (q : Rat) : String :=
  toString q.num

/-- The hexadecimal digit characters never include a newline. -/
theorem hexDigit_ne_newline (n : Nat) : hexDigit n ≠ '\n' := by
  unfold hexDigit
  split <;> decide

/-- Escaping a character never emits a raw newline byte: the newline itself is
escaped to the two characters `\` and `n`. -/
theorem escapeChar_no_newline (c : Char) : '\n' ∉ (escapeChar c).data := by
  unfold escapeChar
  by_cases h1 : c = '"'
  · simp [h1]
  rw [if_neg h1]
  by_cases h2 : c = '\\'
  · simp [h2]
  rw [if_neg h2]
  by_cases h3 : c = '\n'
  · simp [h3]
  rw [if_neg h3]
  by_cases h4 : c = '\r'
  · simp [h4]
  rw [if_neg h4]
  by_cases h5 : c = '\t'
  · simp [h5]
  rw [if_neg h5]
  by_cases h6 : c = '<'
  · simp [h6]
  rw [if_neg h6]
  by_cases h7 : c = '>'
  · simp [h7]
  rw [if_neg h7]
  by_cases h8 : c = '&'
  · simp [h8]
  rw [if_neg h8]
  by_cases h9 : c.toNat < 32
  · rw [if_pos h9]
    intro hmem
    simp only [String.data_append, List.mem_append] at hmem
    rcases hmem with hmem | hmem
    · revert hmem
      decide
    · simp only [List.mem_cons, List.not_mem_nil, or_false] at hmem
      rcases hmem with hmem | hmem
      · exact hexDigit_ne_newline _ hmem.symm
      · exact hexDigit_ne_newline _ hmem.symm
  rw [if_neg h9]
  by_cases h10 : c = ' '
  · simp [h10]
  rw [if_neg h10]
  by_cases h11 : c = ' '
  · simp [h11]
  rw [if_neg h11]
  intro hmem
  simp only [String.singleton, String.push, String.data_append, List.mem_append,
    List.mem_cons, List.not_mem_nil, or_false, false_or] at hmem
  exact h3 hmem.symm

/-- The escaped body of a string literal contains no raw newline byte. -/
theorem escapeList_no_newline (cs : List Char) : '\n' ∉ (escapeList cs).data := by
  induction cs with
  | nil => simp [escapeList]
  | cons c rest ih =>
    simp only [escapeList, String.data_append, List.mem_append]
    intro hmem
    rcases hmem with hmem | hmem
    · exact escapeChar_no_newline c hmem
    · exact ih hmem

/-- A rendered JSON string literal contains no raw newline byte. -/
theorem renderString_no_newline (s : String) : '\n' ∉ (renderString s).data := by
  intro hmem
  simp only [renderString, String.data_append, List.mem_append] at hmem
  rcases hmem with (hmem | hmem) | hmem
  · revert hmem
    decide
  · exact escapeList_no_newline s.data hmem
  · revert hmem
    decide

/-- C5: `NewJsonRPCError(code, message, data)` fails for every code outside the
inclusive range [-32099, -32000], whatever the message and data, and succeeds
for every code inside the range (both endpoints included), returning an error
object carrying that code and message. -/
theorem newJsonRPCError_code_range (code : Int) (message : String) (data : Json) :
    (code < -32099 ∨ code > -32000 →
      NewJsonRPCError code message data =
        Except.error "code must be between  -32099 and -32000") ∧
    (-32099 ≤ code → code ≤ -32000 →
      NewJsonRPCError code message data =
        Except.ok { Code := code, Message := message, Data := some data }) := by
  constructor
  · intro h
    simp only [NewJsonRPCError]
    rw [if_pos h]
  · intro h1 h2
    simp only [NewJsonRPCError]
    rw [if_neg (by omega)]

/-- Witness for C5 at both endpoints and one out-of-range code. -/
theorem newJsonRPCError_code_range_witness :
    NewJsonRPCError (-32100) "m" Json.null =
      Except.error "code must be between  -32099 and -32000" ∧
    NewJsonRPCError (-32099) "m" Json.null =
      Except.ok { Code := -32099, Message := "m", Data := some Json.null } ∧
    NewJsonRPCError (-32000) "m" Json.null =
      Except.ok { Code := -32000, Message := "m", Data := some Json.null } :=
  ⟨(newJsonRPCError_code_range (-32100) "m" Json.null).1 (by decide),
   (newJsonRPCError_code_range (-32099) "m" Json.null).2 (by decide) (by decide),
   (newJsonRPCError_code_range (-32000) "m" Json.null).2 (by decide) (by decide)⟩

/-- C9: `AddData` returns a new error object sharing the receiver's code and
message, with the data payload replaced by the serialization of the argument.
The Go method takes its receiver by value, so the original object cannot be
mutated; in this pure embedding that frame condition is inherent — `e` is the
same value before and after, and the result is a fresh record. -/
theorem addData_copy_semantics (e : jsonRPCError) (d : Json) :
    (e.AddData d).Code = e.Code ∧ (e.AddData d).Message = e.Message ∧
    (e.AddData d).Data = some d :=
  ⟨rfl, rfl, rfl⟩

/-- C7: building a notification with the absent-params marker yields a JSON
object with no `params` member at all (in particular no `"params":null`), and
the produced bytes are a newline-free body followed by exactly one trailing
newline byte.  At this level serialization cannot fail, matching "fails only
when serializing a non-absent params value fails". -/
theorem newNotification_absent_params (nr : Rat → String) (method : String) :
    NewNotificationJson method none =
      Json.obj [("jsonrpc", Json.str "2.0"), ("method", Json.str method)] ∧
    jLookup [("jsonrpc", Json.str "2.0"), ("method", Json.str method)] "params" = none ∧
    ∃ body : String, NewNotification nr method none = body ++ "\n" ∧ '\n' ∉ body.data := by
  refine ⟨rfl, rfl, renderJson nr (NewNotificationJson method none), rfl, ?_⟩
  intro hmem
  simp only [NewNotificationJson, marshalNotification, renderJson, renderMembers,
    String.data_append, List.mem_append,
    show (":" : String).data = [':'] from rfl,
    show ("," : String).data = [','] from rfl,
    show ("\x7b" : String).data = ['\x7b'] from rfl,
    show ("\x7d" : String).data = ['\x7d'] from rfl,
    List.mem_singleton] at hmem
  casesm* _ ∨ _
  all_goals first
    | exact renderString_no_newline _ (by assumption)
    | simp_all


/-- C2: for every method not starting with "rpc.", every params value (or the
absent marker) and every id of numeric or string kind, parsing the bytes built
by `NewRequest` succeeds and returns a request whose method, params and id
equal the inputs (the id compared at the JSON-value level, where Go's `int`
and `float64` coincide as JSON numbers). -/
theorem parseRequest_roundtrip (method : String) (params : Option Json)
    (id : idInterface) (h : hasPrefix method "rpc." = false) :
    ParseRequest (some (NewRequestJson method params id)) =
      Except.ok { JsonRPC := "2.0", Method := method, Params := params,
                  ID := some (idToGoAny id) } := by
  cases id with
  | num q =>
    have hd : decodeRequest (NewRequestJson method params (idInterface.num q)) =
        some { JsonRPC := "2.0", Method := method, Params := params,
               ID := some (GoAny.num q) } := by
      cases params <;> rfl
    unfold ParseRequest
    rw [show (some (NewRequestJson method params (idInterface.num q))).bind decodeRequest =
        decodeRequest (NewRequestJson method params (idInterface.num q)) from rfl, hd]
    simp [jsonRPCProtocol, h, idToGoAny]
  | str s =>
    have hd : decodeRequest (NewRequestJson method params (idInterface.str s)) =
        some { JsonRPC := "2.0", Method := method, Params := params,
               ID := some (GoAny.str s) } := by
      cases params <;> rfl
    unfold ParseRequest
    rw [show (some (NewRequestJson method params (idInterface.str s))).bind decodeRequest =
        decodeRequest (NewRequestJson method params (idInterface.str s)) from rfl, hd]
    simp [jsonRPCProtocol, h, idToGoAny]

/-- Witness for C2 on a concrete request. -/
theorem parseRequest_roundtrip_witness :
    ParseRequest (some (NewRequestJson "subtract" (some (Json.arr [Json.num 42, Json.num 23]))
        (idInterface.num 1))) =
      Except.ok { JsonRPC := "2.0", Method := "subtract",
                  Params := some (Json.arr [Json.num 42, Json.num 23]),
                  ID := some (idToGoAny (idInterface.num 1)) } :=
  parseRequest_roundtrip "subtract" (some (Json.arr [Json.num 42, Json.num 23]))
    (idInterface.num 1) (by decide)

/-- C8: for every successfully parsed request, replying through the request
(`request.NewResultResponse`) produces exactly what the standalone
`NewResultResponse` produces when given the request's identifier; both go
through the same `marshalResultResponse`, so they agree on success and failure
alike. -/
theorem requestNewResultResponse_eq (oj : Option Json) (r : request) (res : Json)
    (h : ParseRequest oj = Except.ok r) :
    ∃ i : idInterface, r.ID = some (idToGoAny i) ∧
      request.NewResultResponse r res = NewResultResponseJson i res := by
  unfold ParseRequest at h
  cases hb : oj.bind decodeRequest with
  | none => rw [hb] at h; simp at h
  | some r0 =>
    rw [hb] at h
    have h' : (if r0.JsonRPC ≠ jsonRPCProtocol then
          (Except.error JsonInvalidRequest : Except jsonRPCError request)
        else if hasPrefix r0.Method "rpc." then Except.error JsonInvalidRequest
        else match r0.ID with
          | some (GoAny.num _) => Except.ok r0
          | some (GoAny.str _) => Except.ok r0
          | _ => Except.error JsonInvalidRequest) = Except.ok r := h
    by_cases h1 : r0.JsonRPC ≠ jsonRPCProtocol
    · rw [if_pos h1] at h'; simp at h'
    · rw [if_neg h1] at h'
      by_cases h2 : hasPrefix r0.Method "rpc." = true
      · rw [if_pos h2] at h'; simp at h'
      · rw [if_neg h2] at h'
        cases hid : r0.ID with
        | none => rw [hid] at h'; simp at h'
        | some a =>
          rw [hid] at h'
          cases a with
          | num q =>
            simp only [Except.ok.injEq] at h'
            subst h'
            exact ⟨idInterface.num q, hid, by
              simp [request.NewResultResponse, NewResultResponseJson, idToGoAny, hid]⟩
          | str s =>
            simp only [Except.ok.injEq] at h'
            subst h'
            exact ⟨idInterface.str s, hid, by
              simp [request.NewResultResponse, NewResultResponseJson, idToGoAny, hid]⟩
          | bool b => simp at h'
          | arr es => simp at h'
          | obj ms => simp at h'

/-- Witness for C8 on a concrete parsed request. -/
theorem requestNewResultResponse_eq_witness :
    ∃ i : idInterface,
      ({ JsonRPC := "2.0", Method := "subtract", Params := none,
         ID := some (GoAny.num 1) } : request).ID = some (idToGoAny i) ∧
      request.NewResultResponse
          { JsonRPC := "2.0", Method := "subtract", Params := none,
            ID := some (GoAny.num 1) } (Json.str "ok") =
        NewResultResponseJson i (Json.str "ok") :=
  requestNewResultResponse_eq
    (some (Json.obj [("jsonrpc", Json.str "2.0"), ("method", Json.str "subtract"),
      ("id", Json.num 1)]))
    { JsonRPC := "2.0", Method := "subtract", Params := none, ID := some (GoAny.num 1) }
    (Json.str "ok") rfl

/-- C10: for every numeric-or-string id and every result value — `Json.null`
modelling a Go `nil` result — the bytes built by `NewResultResponse` are
accepted by `ParseResponse`, and a nil result is emitted as an explicit
`"result":null` member (present, not omitted), which `ParseResponse` counts as
a present result. -/
theorem newResultResponse_roundtrip (i : idInterface) (res : Json) :
    (∃ resp : response, ParseResponse (some (NewResultResponseJson i res)) = Except.ok resp) ∧
    ∃ ms, NewResultResponseJson i Json.null = Json.obj ms ∧
      jLookup ms "result" = some Json.null := by
  constructor
  · cases i with
    | num q =>
      exact ⟨{ JsonRPC := "2.0", Result := some res, Error := none,
               ID := some (GoAny.num q) }, rfl⟩
    | str s =>
      exact ⟨{ JsonRPC := "2.0", Result := some res, Error := none,
               ID := some (GoAny.str s) }, rfl⟩
  · cases i with
    | num q => exact ⟨_, rfl, rfl⟩
    | str s => exact ⟨_, rfl, rfl⟩

/-- C6 (amended): for every input on which `ParseNotification` or
`ParseRequest` succeeds, the resulting method name does not start with the
reserved prefix "rpc.".  (The claim's "non-empty string" does not hold: neither
parser checks emptiness, see the counterexample; the prefix rule is the
invariant the code actually enforces.) -/
theorem parsedMethod_rpc_guard (oj : Option Json) :
    (∀ n, ParseNotification oj = Except.ok n → hasPrefix n.Method "rpc." = false) ∧
    (∀ r, ParseRequest oj = Except.ok r → hasPrefix r.Method "rpc." = false) := by
  constructor
  · intro n hn
    unfold ParseNotification at hn
    cases hb : oj.bind decodeNotification with
    | none => rw [hb] at hn; simp at hn
    | some n0 =>
      rw [hb] at hn
      have h' : (if n0.JsonRPC ≠ jsonRPCProtocol then
            (Except.error "invalid notification" : Except String notification)
          else if hasPrefix n0.Method "rpc." then Except.error "invalid notification"
          else Except.ok n0) = Except.ok n := hn
      by_cases h1 : n0.JsonRPC ≠ jsonRPCProtocol
      · rw [if_pos h1] at h'; simp at h'
      · rw [if_neg h1] at h'
        by_cases h2 : hasPrefix n0.Method "rpc." = true
        · rw [if_pos h2] at h'; simp at h'
        · rw [if_neg h2] at h'
          simp only [Except.ok.injEq] at h'
          subst h'
          simpa using h2
  · intro r hr
    unfold ParseRequest at hr
    cases hb : oj.bind decodeRequest with
    | none => rw [hb] at hr; simp at hr
    | some r0 =>
      rw [hb] at hr
      have h' : (if r0.JsonRPC ≠ jsonRPCProtocol then
            (Except.error JsonInvalidRequest : Except jsonRPCError request)
          else if hasPrefix r0.Method "rpc." then Except.error JsonInvalidRequest
          else match r0.ID with
            | some (GoAny.num _) => Except.ok r0
            | some (GoAny.str _) => Except.ok r0
            | _ => Except.error JsonInvalidRequest) = Except.ok r := hr
      by_cases h1 : r0.JsonRPC ≠ jsonRPCProtocol
      · rw [if_pos h1] at h'; simp at h'
      · rw [if_neg h1] at h'
        by_cases h2 : hasPrefix r0.Method "rpc." = true
        · rw [if_pos h2] at h'; simp at h'
        · rw [if_neg h2] at h'
          cases hid : r0.ID with
          | none => rw [hid] at h'; simp at h'
          | some a =>
            rw [hid] at h'
            cases a with
            | num q =>
              simp only [Except.ok.injEq] at h'
              subst h'
              simpa using h2
            | str s =>
              simp only [Except.ok.injEq] at h'
              subst h'
              simpa using h2
            | bool b => simp at h'
            | arr es => simp at h'
            | obj ms => simp at h'

/-- Witness for C6 (amended) on a concrete parsed request. -/
theorem parsedMethod_rpc_guard_witness :
    hasPrefix "subtract" "rpc." = false :=
  (parsedMethod_rpc_guard (some (Json.obj [("jsonrpc", Json.str "2.0"),
      ("method", Json.str "subtract"), ("id", Json.num 1)]))).2
    { JsonRPC := "2.0", Method := "subtract", Params := none, ID := some (GoAny.num 1) } rfl

/-- C6 counterexample: both parsers accept messages with no `method` member at
all — the decoded method is the empty string, contradicting "the resulting
message's method name is a non-empty string". -/
theorem parsedMethod_empty_counterexample :
    ParseNotification (some (Json.obj [("jsonrpc", Json.str "2.0")])) =
      Except.ok { JsonRPC := "2.0", Method := "", Params := none } ∧
    ParseRequest (some (Json.obj [("jsonrpc", Json.str "2.0"), ("id", Json.num 1)])) =
      Except.ok { JsonRPC := "2.0", Method := "", Params := none,
                  ID := some (GoAny.num 1) } ∧
    ("" : String).length = 0 :=
  ⟨rfl, rfl, rfl⟩

/-- C1 (amended): whenever `NewErrorResponse` succeeds, the output object's
`id` member is the JSON literal `null` exactly when the error's code is
ParseError or InvalidRequest; for those two codes the same output is produced
regardless of the id argument, and for every other code the passed identifier
appears as the `id` member's value.  (The claim's "the identifier field is
omitted" is false: the `response` struct's `id` field carries no `omitempty`
tag, so the member is always present — null rather than absent.) -/
theorem newErrorResponse_id_member (oid : Option GoAny) (e : jsonRPCError) (j : Json)
    (h : NewErrorResponse oid (some e) = Except.ok j) :
    ∃ ms, j = Json.obj ms ∧
      ((jLookup ms "id" = some Json.null) ↔
        (e.Code = ParseError ∨ e.Code = InvalidRequest)) ∧
      ((e.Code = ParseError ∨ e.Code = InvalidRequest) →
        ∀ oid2, NewErrorResponse oid2 (some e) = Except.ok j) ∧
      (¬(e.Code = ParseError ∨ e.Code = InvalidRequest) →
        ∃ a, oid = some a ∧ jLookup ms "id" = some (goAnyToJson a)) := by
  unfold NewErrorResponse at h
  have h' : (if e.Code ≠ ParseError ∧ e.Code ≠ InvalidRequest then
        match oid with
        | none =>
          (Except.error "id must be present unless the error is ParseError or InvalidRequest" :
            Except String Json)
        | some a =>
          match a with
          | GoAny.num _ =>
            Except.ok (marshalResponse { JsonRPC := jsonRPCProtocol, Error := some e, ID := some a })
          | GoAny.str _ =>
            Except.ok (marshalResponse { JsonRPC := jsonRPCProtocol, Error := some e, ID := some a })
          | _ => Except.error "id must be of type int, float64 or string"
      else Except.ok (marshalResponse { JsonRPC := jsonRPCProtocol, Error := some e })) =
      Except.ok j := h
  clear h
  by_cases hc : e.Code ≠ ParseError ∧ e.Code ≠ InvalidRequest
  · rw [if_pos hc] at h'
    have hns : ¬(e.Code = ParseError ∨ e.Code = InvalidRequest) := by
      simp [hc.1, hc.2]
    cases oid with
    | none => simp at h'
    | some a =>
      cases a with
      | num q =>
        simp only [Except.ok.injEq] at h'
        subst h'
        refine ⟨[("jsonrpc", Json.str "2.0"), ("error", marshalError e), ("id", Json.num q)],
          by simp [marshalResponse, jsonRPCProtocol, goAnyToJson], ?_, ?_, ?_⟩
        · rw [show jLookup [("jsonrpc", Json.str "2.0"), ("error", marshalError e),
              ("id", Json.num q)] "id" = some (Json.num q) from rfl]
          simp [hc.1, hc.2]
        · intro hsp
          exact absurd hsp hns
        · intro _
          exact ⟨GoAny.num q, rfl, rfl⟩
      | str s =>
        simp only [Except.ok.injEq] at h'
        subst h'
        refine ⟨[("jsonrpc", Json.str "2.0"), ("error", marshalError e), ("id", Json.str s)],
          by simp [marshalResponse, jsonRPCProtocol, goAnyToJson], ?_, ?_, ?_⟩
        · rw [show jLookup [("jsonrpc", Json.str "2.0"), ("error", marshalError e),
              ("id", Json.str s)] "id" = some (Json.str s) from rfl]
          simp [hc.1, hc.2]
        · intro hsp
          exact absurd hsp hns
        · intro _
          exact ⟨GoAny.str s, rfl, rfl⟩
      | bool b => simp at h'
      | arr es => simp at h'
      | obj ms => simp at h'
  · rw [if_neg hc] at h'
    simp only [Except.ok.injEq] at h'
    subst h'
    have hsp : e.Code = ParseError ∨ e.Code = InvalidRequest := by
      rcases not_and_or.mp hc with h | h
      · exact Or.inl (not_not.mp h)
      · exact Or.inr (not_not.mp h)
    refine ⟨[("jsonrpc", Json.str "2.0"), ("error", marshalError e), ("id", Json.null)],
      by simp [marshalResponse, jsonRPCProtocol], ?_, ?_, ?_⟩
    · rw [show jLookup [("jsonrpc", Json.str "2.0"), ("error", marshalError e),
          ("id", Json.null)] "id" = some Json.null from rfl]
      simp [hsp]
    · intro _ oid2
      have hg : (if e.Code ≠ ParseError ∧ e.Code ≠ InvalidRequest then
            match oid2 with
            | none =>
              (Except.error "id must be present unless the error is ParseError or InvalidRequest" :
                Except String Json)
            | some a =>
              match a with
              | GoAny.num _ =>
                Except.ok (marshalResponse
                  { JsonRPC := jsonRPCProtocol, Error := some e, ID := some a })
              | GoAny.str _ =>
                Except.ok (marshalResponse
                  { JsonRPC := jsonRPCProtocol, Error := some e, ID := some a })
              | _ => Except.error "id must be of type int, float64 or string"
          else Except.ok (marshalResponse { JsonRPC := jsonRPCProtocol, Error := some e })) =
          NewErrorResponse oid2 (some e) := rfl
      rw [← hg, if_neg hc]
    · intro hns
      exact absurd hsp hns

/-- Witness for C1 (amended) on a concrete non-special error and numeric id. -/
theorem newErrorResponse_id_member_witness :
    ∃ ms, Json.obj [("jsonrpc", Json.str "2.0"),
        ("error", marshalError JsonMethodNotFound), ("id", Json.num 7)] = Json.obj ms ∧
      ((jLookup ms "id" = some Json.null) ↔
        (JsonMethodNotFound.Code = ParseError ∨ JsonMethodNotFound.Code = InvalidRequest)) ∧
      ((JsonMethodNotFound.Code = ParseError ∨ JsonMethodNotFound.Code = InvalidRequest) →
        ∀ oid2, NewErrorResponse oid2 (some JsonMethodNotFound) =
          Except.ok (Json.obj [("jsonrpc", Json.str "2.0"),
            ("error", marshalError JsonMethodNotFound), ("id", Json.num 7)])) ∧
      (¬(JsonMethodNotFound.Code = ParseError ∨ JsonMethodNotFound.Code = InvalidRequest) →
        ∃ a, some (GoAny.num 7) = some a ∧
          jLookup ms "id" = some (goAnyToJson a)) :=
  newErrorResponse_id_member (some (GoAny.num 7)) JsonMethodNotFound
    (Json.obj [("jsonrpc", Json.str "2.0"),
      ("error", marshalError JsonMethodNotFound), ("id", Json.num 7)]) rfl

/-- C1 counterexample: for the ParseError code the claim says the produced
bytes omit the identifier field; the code instead always emits an `id` member
(the `response` struct's `id` field has no `omitempty` tag), which is the JSON
literal `null` here — visible both in the member list and in the rendered
bytes, which contain `"id":null`. -/
theorem newErrorResponse_omission_counterexample :
    NewErrorResponse none (some JsonParseError) =
      Except.ok (Json.obj [("jsonrpc", Json.str "2.0"),
        ("error", Json.obj [("code", Json.num (-32700)), ("message", Json.str "Parse error")]),
        ("id", Json.null)]) ∧
    jLookup [("jsonrpc", Json.str "2.0"),
        ("error", Json.obj [("code", Json.num (-32700)), ("message", Json.str "Parse error")]),
        ("id", Json.null)] "id" = some Json.null ∧
    renderJson intRepr (Json.obj [("jsonrpc", Json.str "2.0"),
        ("error", Json.obj [("code", Json.num (-32700)), ("message", Json.str "Parse error")]),
        ("id", Json.null)]) ++ "\n" =
      "\x7b\"jsonrpc\":\"2.0\",\"error\":\x7b\"code\":-32700,\"message\":\"Parse error\"\x7d,\"id\":null\x7d\n" :=
  ⟨rfl, rfl, rfl⟩

/-- The request an input decodes to (`none` when `json.Unmarshal` fails). -/
def reqDecoded (oj : Option Json) : Option request :=
  oj.bind decodeRequest

/-- C4's check 1, amended: `json.Unmarshal` rejects the input — malformed
JSON, or well-formed JSON that does not fit the request struct's shape. -/
def reqUnmarshalViolation (oj : Option Json) : Bool :=
  (reqDecoded oj).isNone

/-- C4's check 2: the decoded protocol-version field is not exactly "2.0". -/
def reqVersionViolation (oj : Option Json) : Bool :=
  match reqDecoded oj with
  | some r => r.JsonRPC != jsonRPCProtocol
  | none => false

/-- C4's check 3: the decoded method name starts with "rpc.". -/
def reqMethodViolation (oj : Option Json) : Bool :=
  match reqDecoded oj with
  | some r => hasPrefix r.Method "rpc."
  | none => false

/-- C4's check 4: the decoded identifier's JSON type is not number or string. -/
def reqIdViolation (oj : Option Json) : Bool :=
  match reqDecoded oj with
  | some r =>
    match r.ID with
    | some (GoAny.num _) => false
    | some (GoAny.str _) => false
    | _ => true
  | none => false

/-- The two canonical request-parsing error objects are distinct values. -/
theorem parse_invalid_distinct : JsonParseError ≠ JsonInvalidRequest := by
  simp [JsonParseError, JsonInvalidRequest, ParseError, InvalidRequest]

/-- C4 (amended): `ParseRequest` either succeeds or returns exactly one
canonical error object, determined by the first violated check in order:
an input `json.Unmarshal` rejects (malformed JSON — or, the amendment,
well-formed JSON that does not fit the request shape, e.g. a non-object or a
non-string method) yields `JsonParseError`; otherwise a version, method-prefix
or identifier-type violation yields `JsonInvalidRequest`; with no violation
the decoded request is returned.  A single error value is returned, never an
aggregate. -/
theorem parseRequest_error_order (oj : Option Json) :
    (ParseRequest oj = Except.error JsonParseError ↔ reqUnmarshalViolation oj = true) ∧
    (ParseRequest oj = Except.error JsonInvalidRequest ↔
      (reqUnmarshalViolation oj = false ∧
        (reqVersionViolation oj || reqMethodViolation oj || reqIdViolation oj) = true)) ∧
    (∀ r, ParseRequest oj = Except.ok r ↔
      (reqDecoded oj = some r ∧ reqVersionViolation oj = false ∧
        reqMethodViolation oj = false ∧ reqIdViolation oj = false)) := by
  cases hb : reqDecoded oj with
  | none =>
    have hp : ParseRequest oj = Except.error JsonParseError := by
      unfold ParseRequest
      rw [show oj.bind decodeRequest = reqDecoded oj from rfl, hb]
    refine ⟨?_, ?_, ?_⟩
    · simp [hp, reqUnmarshalViolation, hb]
    · simp [hp, reqUnmarshalViolation, hb, parse_invalid_distinct]
    · intro r
      simp [hp, hb, parse_invalid_distinct]
  | some r0 =>
    have hp : ParseRequest oj =
        (if r0.JsonRPC ≠ jsonRPCProtocol then Except.error JsonInvalidRequest
         else if hasPrefix r0.Method "rpc." then Except.error JsonInvalidRequest
         else match r0.ID with
           | some (GoAny.num _) => Except.ok r0
           | some (GoAny.str _) => Except.ok r0
           | _ => Except.error JsonInvalidRequest) := by
      unfold ParseRequest
      rw [show oj.bind decodeRequest = reqDecoded oj from rfl, hb]
    by_cases h1 : r0.JsonRPC = jsonRPCProtocol
    · rw [if_neg (by simp [h1])] at hp
      by_cases h2 : hasPrefix r0.Method "rpc." = true
      · rw [if_pos h2] at hp
        refine ⟨?_, ?_, ?_⟩
        · simp [hp, reqUnmarshalViolation, hb, parse_invalid_distinct.symm]
        · simp [hp, reqUnmarshalViolation, reqVersionViolation, reqMethodViolation, hb, h2]
        · intro r
          simp [hp, reqMethodViolation, hb, h2]
      · rw [if_neg h2] at hp
        cases hid : r0.ID with
        | none =>
          rw [hid] at hp
          refine ⟨?_, ?_, ?_⟩
          · simp [hp, reqUnmarshalViolation, hb, parse_invalid_distinct.symm]
          · simp [hp, reqUnmarshalViolation, reqIdViolation, hb, hid]
          · intro r
            simp [hp, reqIdViolation, hb, hid]
        | some a =>
          rw [hid] at hp
          cases a with
          | num q =>
            refine ⟨?_, ?_, ?_⟩
            · simp [hp, reqUnmarshalViolation, hb]
            · simp [hp, reqUnmarshalViolation, reqVersionViolation, reqMethodViolation,
                reqIdViolation, hb, hid, h1, h2]
            · intro r
              simp [hp, reqVersionViolation, reqMethodViolation, reqIdViolation,
                hb, hid, h1, h2, eq_comm]
          | str s =>
            refine ⟨?_, ?_, ?_⟩
            · simp [hp, reqUnmarshalViolation, hb]
            · simp [hp, reqUnmarshalViolation, reqVersionViolation, reqMethodViolation,
                reqIdViolation, hb, hid, h1, h2]
            · intro r
              simp [hp, reqVersionViolation, reqMethodViolation, reqIdViolation,
                hb, hid, h1, h2, eq_comm]
          | bool b =>
            refine ⟨?_, ?_, ?_⟩
            · simp [hp, reqUnmarshalViolation, hb, parse_invalid_distinct.symm]
            · simp [hp, reqUnmarshalViolation, reqIdViolation, hb, hid]
            · intro r
              simp [hp, reqIdViolation, hb, hid]
          | arr es =>
            refine ⟨?_, ?_, ?_⟩
            · simp [hp, reqUnmarshalViolation, hb, parse_invalid_distinct.symm]
            · simp [hp, reqUnmarshalViolation, reqIdViolation, hb, hid]
            · intro r
              simp [hp, reqIdViolation, hb, hid]
          | obj ms =>
            refine ⟨?_, ?_, ?_⟩
            · simp [hp, reqUnmarshalViolation, hb, parse_invalid_distinct.symm]
            · simp [hp, reqUnmarshalViolation, reqIdViolation, hb, hid]
            · intro r
              simp [hp, reqIdViolation, hb, hid]
    · rw [if_pos (by simp [h1])] at hp
      refine ⟨?_, ?_, ?_⟩
      · simp [hp, reqUnmarshalViolation, hb, parse_invalid_distinct.symm]
      · simp [hp, reqUnmarshalViolation, reqVersionViolation, hb, h1]
      · intro r
        simp [hp, reqVersionViolation, hb, h1]

/-- C4 counterexample: `{"jsonrpc":"2.0","method":5,"id":1}` is well-formed
JSON, its protocol-version member is exactly "2.0", its method member is a
number (so not a method name starting with "rpc.") and its id is a number —
none of the claim's four checks is violated, so the claim entails success; the
code instead returns `JsonParseError`, because `json.Unmarshal` rejects a
number in the string-typed method field. -/
theorem parseRequest_wellformed_counterexample :
    ParseRequest (some (Json.obj [("jsonrpc", Json.str "2.0"), ("method", Json.num 5),
        ("id", Json.num 1)])) = Except.error JsonParseError ∧
    jLookup [("jsonrpc", Json.str "2.0"), ("method", Json.num 5), ("id", Json.num 1)]
        "jsonrpc" = some (Json.str "2.0") ∧
    jLookup [("jsonrpc", Json.str "2.0"), ("method", Json.num 5), ("id", Json.num 1)]
        "method" = some (Json.num 5) ∧
    jLookup [("jsonrpc", Json.str "2.0"), ("method", Json.num 5), ("id", Json.num 1)]
        "id" = some (Json.num 1) :=
  ⟨rfl, rfl, rfl, rfl⟩

/-- The response an input decodes to (`none` when `json.Unmarshal` fails). -/
def respDecoded (oj : Option Json) : Option response :=
  oj.bind decodeResponse

/-- C3's rule 1, amended: `json.Unmarshal` rejects the input — malformed JSON,
or well-formed JSON that does not fit the response struct's shape. -/
def respUnmarshalViolation (oj : Option Json) : Bool :=
  (respDecoded oj).isNone

/-- C3's rule 2: protocol-version field not exactly "2.0". -/
def respVersionViolation (oj : Option Json) : Bool :=
  match respDecoded oj with
  | some r => r.JsonRPC != jsonRPCProtocol
  | none => false

/-- C3's rule 3: neither result nor error present. -/
def respMissingBothViolation (oj : Option Json) : Bool :=
  match respDecoded oj with
  | some r => r.Result.isNone && r.Error.isNone
  | none => false

/-- C3's rule 4: both result and error present. -/
def respBothPresentViolation (oj : Option Json) : Bool :=
  match respDecoded oj with
  | some r => r.Result.isSome && r.Error.isSome
  | none => false

/-- C3's rule 5: identifier null/absent while error is absent. -/
def respIdAbsentViolation (oj : Option Json) : Bool :=
  match respDecoded oj with
  | some r => r.ID.isNone && r.Error.isNone
  | none => false

/-- C3's rule 6: identifier null/absent while error is present with a code
that is neither ParseError nor InvalidRequest. -/
def respIdCodeViolation (oj : Option Json) : Bool :=
  match respDecoded oj with
  | some r =>
    r.ID.isNone &&
      (match r.Error with
       | some e => (e.Code != ParseError) && (e.Code != InvalidRequest)
       | none => false)
  | none => false

/-- C3 (amended): `ParseResponse` fails on the first violated rule, in the
fixed order (1) `json.Unmarshal` rejects the input — malformed JSON or, the
amendment, well-formed JSON that does not fit the response shape, e.g. a
non-string message inside the error object; (2) version mismatch; (3) neither
result nor error; (4) both; (5) id null/absent without error; (6) id
null/absent with an error whose code is neither ParseError nor InvalidRequest —
and an input violating no rule parses successfully. -/
theorem parseResponse_error_order (oj : Option Json) :
    (ParseResponse oj = Except.error RespError.jsonUnmarshal ↔
      respUnmarshalViolation oj = true) ∧
    (ParseResponse oj = Except.error RespError.protocolMismatch ↔
      (respUnmarshalViolation oj = false ∧ respVersionViolation oj = true)) ∧
    (ParseResponse oj = Except.error RespError.resultOrErrorMissing ↔
      (respUnmarshalViolation oj = false ∧ respVersionViolation oj = false ∧
        respMissingBothViolation oj = true)) ∧
    (ParseResponse oj = Except.error RespError.resultAndErrorTogether ↔
      (respUnmarshalViolation oj = false ∧ respVersionViolation oj = false ∧
        respMissingBothViolation oj = false ∧ respBothPresentViolation oj = true)) ∧
    (ParseResponse oj = Except.error RespError.idMissingWithoutError ↔
      (respUnmarshalViolation oj = false ∧ respVersionViolation oj = false ∧
        respMissingBothViolation oj = false ∧ respBothPresentViolation oj = false ∧
        respIdAbsentViolation oj = true)) ∧
    (ParseResponse oj = Except.error RespError.idNullWithWrongCode ↔
      (respUnmarshalViolation oj = false ∧ respVersionViolation oj = false ∧
        respMissingBothViolation oj = false ∧ respBothPresentViolation oj = false ∧
        respIdAbsentViolation oj = false ∧ respIdCodeViolation oj = true)) ∧
    (∀ r, ParseResponse oj = Except.ok r ↔
      (respDecoded oj = some r ∧ respVersionViolation oj = false ∧
        respMissingBothViolation oj = false ∧ respBothPresentViolation oj = false ∧
        respIdAbsentViolation oj = false ∧ respIdCodeViolation oj = false)) := by
  cases hb : respDecoded oj with
  | none =>
    have hp : ParseResponse oj = Except.error RespError.jsonUnmarshal := by
      unfold ParseResponse
      rw [show oj.bind decodeResponse = respDecoded oj from rfl, hb]
    simp [hp, respUnmarshalViolation, respVersionViolation, respMissingBothViolation,
      respBothPresentViolation, respIdAbsentViolation, respIdCodeViolation, hb]
  | some r0 =>
    have hp : ParseResponse oj =
        (if r0.JsonRPC ≠ jsonRPCProtocol then Except.error RespError.protocolMismatch
         else if r0.Result.isNone && r0.Error.isNone then
           Except.error RespError.resultOrErrorMissing
         else if r0.Result.isSome && r0.Error.isSome then
           Except.error RespError.resultAndErrorTogether
         else
           match r0.ID with
           | none =>
             match r0.Error with
             | none => Except.error RespError.idMissingWithoutError
             | some e =>
               if e.Code ≠ ParseError ∧ e.Code ≠ InvalidRequest then
                 Except.error RespError.idNullWithWrongCode
               else Except.ok r0
           | some _ => Except.ok r0) := by
      unfold ParseResponse
      rw [show oj.bind decodeResponse = respDecoded oj from rfl, hb]
    by_cases h1 : r0.JsonRPC = jsonRPCProtocol
    · rw [if_neg (by simp [h1])] at hp
      by_cases h2 : (r0.Result.isNone && r0.Error.isNone) = true
      · rw [if_pos h2] at hp
        simp [hp, respUnmarshalViolation, respVersionViolation, respMissingBothViolation,
          respBothPresentViolation, respIdAbsentViolation, respIdCodeViolation, hb, h1, h2]
      · rw [if_neg h2] at hp
        by_cases h3 : (r0.Result.isSome && r0.Error.isSome) = true
        · rw [if_pos h3] at hp
          simp [hp, respUnmarshalViolation, respVersionViolation, respMissingBothViolation,
            respBothPresentViolation, respIdAbsentViolation, respIdCodeViolation,
            hb, h1, h2, h3]
        · rw [if_neg h3] at hp
          cases hid : r0.ID with
          | some a =>
            rw [hid] at hp
            simp [hp, respUnmarshalViolation, respVersionViolation, respMissingBothViolation,
              respBothPresentViolation, respIdAbsentViolation, respIdCodeViolation,
              hb, h1, h2, h3, hid, eq_comm]
          | none =>
            rw [hid] at hp
            cases herr : r0.Error with
            | none =>
              rw [herr] at hp
              cases hres : r0.Result with
              | none => rw [hres, herr] at h2; simp at h2
              | some v =>
                simp [hp, respUnmarshalViolation, respVersionViolation,
                  respMissingBothViolation, respBothPresentViolation, respIdAbsentViolation,
                  respIdCodeViolation, hb, h1, h2, h3, hid, herr, hres]
            | some e =>
              rw [herr] at hp
              have hp2 : ParseResponse oj =
                  (if e.Code ≠ ParseError ∧ e.Code ≠ InvalidRequest then
                    Except.error RespError.idNullWithWrongCode
                  else Except.ok r0) := hp
              have hres : r0.Result = none := by
                cases hres0 : r0.Result with
                | none => rfl
                | some v => rw [hres0, herr] at h3; simp at h3
              by_cases h4 : e.Code ≠ ParseError ∧ e.Code ≠ InvalidRequest
              · rw [if_pos h4] at hp2
                simp [hp2, respUnmarshalViolation, respVersionViolation,
                  respMissingBothViolation, respBothPresentViolation,
                  respIdAbsentViolation, respIdCodeViolation,
                  hb, h1, hid, herr, hres, h4.1, h4.2]
              · rw [if_neg h4] at hp2
                have hsp : e.Code = ParseError ∨ e.Code = InvalidRequest := by
                  rcases not_and_or.mp h4 with h | h
                  · exact Or.inl (not_not.mp h)
                  · exact Or.inr (not_not.mp h)
                rcases hsp with hsp | hsp <;>
                  simp [hp2, respUnmarshalViolation, respVersionViolation,
                    respMissingBothViolation, respBothPresentViolation,
                    respIdAbsentViolation, respIdCodeViolation,
                    hb, h1, hid, herr, hres, hsp]
    · rw [if_pos (by simp [h1])] at hp
      simp [hp, respUnmarshalViolation, respVersionViolation, respMissingBothViolation,
        respBothPresentViolation, respIdAbsentViolation, respIdCodeViolation, hb, h1]

/-- C3 counterexample: `{"jsonrpc":"2.0","error":{"code":-32700,"message":5},
"id":1}` is well-formed JSON with the exact protocol version, an error member
and no result (rules 3 and 4 hold) and a present id (rules 5 and 6 hold) — the
claim's six rules are all satisfied, so the claim entails a successful parse;
the code instead fails at its first stage with the `json.Unmarshal` error,
because the error object's message is not a string. -/
theorem parseResponse_wellformed_counterexample :
    ParseResponse (some (Json.obj [("jsonrpc", Json.str "2.0"),
        ("error", Json.obj [("code", Json.num (-32700)), ("message", Json.num 5)]),
        ("id", Json.num 1)])) = Except.error RespError.jsonUnmarshal ∧
    jLookup [("jsonrpc", Json.str "2.0"),
        ("error", Json.obj [("code", Json.num (-32700)), ("message", Json.num 5)]),
        ("id", Json.num 1)] "jsonrpc" = some (Json.str "2.0") ∧
    jLookup [("jsonrpc", Json.str "2.0"),
        ("error", Json.obj [("code", Json.num (-32700)), ("message", Json.num 5)]),
        ("id", Json.num 1)] "result" = none ∧
    jLookup [("jsonrpc", Json.str "2.0"),
        ("error", Json.obj [("code", Json.num (-32700)), ("message", Json.num 5)]),
        ("id", Json.num 1)] "error" =
      some (Json.obj [("code", Json.num (-32700)), ("message", Json.num 5)]) ∧
    jLookup [("jsonrpc", Json.str "2.0"),
        ("error", Json.obj [("code", Json.num (-32700)), ("message", Json.num 5)]),
        ("id", Json.num 1)] "id" = some (Json.num 1) :=
  ⟨rfl, rfl, rfl, rfl, rfl⟩

/-- Witness for C4 (amended): a "1.0" version request is rejected with the
canonical InvalidRequest object, by the ordering theorem. -/
theorem parseRequest_error_order_witness :
    ParseRequest (some (Json.obj [("jsonrpc", Json.str "1.0"), ("method", Json.str "subtract"),
        ("id", Json.num 1)])) = Except.error JsonInvalidRequest :=
  ((parseRequest_error_order (some (Json.obj [("jsonrpc", Json.str "1.0"),
      ("method", Json.str "subtract"), ("id", Json.num 1)]))).2.1).mpr ⟨rfl, rfl⟩

/-- Witness for C3 (amended): a response carrying both result and error fails
with the rule-4 error, by the ordering theorem. -/
theorem parseResponse_error_order_witness :
    ParseResponse (some (Json.obj [("jsonrpc", Json.str "2.0"), ("result", Json.str "ok"),
        ("error", Json.obj [("code", Json.num (-32601)), ("message", Json.str "x")]),
        ("id", Json.num 1)])) = Except.error RespError.resultAndErrorTogether :=
  ((parseResponse_error_order (some (Json.obj [("jsonrpc", Json.str "2.0"),
      ("result", Json.str "ok"),
      ("error", Json.obj [("code", Json.num (-32601)), ("message", Json.str "x")]),
      ("id", Json.num 1)]))).2.2.2.1).mpr ⟨rfl, rfl, rfl, rfl⟩
